import Mathlib

set_option maxHeartbeats 1000000

/- Shallow embedding of the MITM proxy (Go package `proxy`).

   Units embedded:
   * the leaf-certificate mint and cache (`CertificateStore`,
     `GetOrCreateCertificate`, `createAndStoreCertificate`,
     `CertificateGenerator`, `createCertificateTemplate`,
     `validateConfiguration`, `generateCertificate`);
   * the CA material loader (`CertificateManager`, `readSecureFile`,
     `parseCertificateBlock`, `parsePrivateKeyBlock`,
     `processCertificateData`, `InitializeCertificateAuthority`, `LoadCA`);
   * the two plain-HTTP forwarding paths (`ConnectionHandler` with
     `parseHeaderLine` / `readRequestBody` / `sendRequest` /
     `establishConnection`, and `RequestProcessor` with `parseHeader` /
     `collectHeaders` / `determinePort` / `determinePath` /
     `sendModifiedRequest` / `handlePlainConnection`).

   Modelling conventions: Go maps become association lists, byte slices
   become `List Nat`, `time.Time` and `time.Duration` become `Int`
   nanoseconds, and effectful library calls (file reads, PEM decoding,
   X.509 / PKCS#1 parsing, randomness) become explicit oracle parameters
   so that the repository's own control flow is what the definitions
   express. Error message texts are not modelled. -/

/-- Go `strings.ToLower` restricted to ASCII (all names compared in the
sources are ASCII header names and hostnames). -/
def toLowerStr (s : String) : String := String.mk (s.data.map Char.toLower)

/-- Association-list lookup, modelling a read of a Go `map[string]V`. -/
def mapFind {α : Type} (k : String) : List (String × α) → Option α
  | [] => none
  | (k2, v) :: rest => if k2 = k then some v else mapFind k rest

/-- `pkix.Name` restricted to the fields the generator sets. -/
structure PkixName where
  commonName : String
  organization : List String
deriving DecidableEq, Repr

/-- `x509.ExtKeyUsage` values that can occur here. -/
inductive ExtKeyUsage where
  | any
  | serverAuth
  | clientAuth
deriving DecidableEq, Repr

/-- Go `x509.KeyUsageDigitalSignature` bit. -/
def KeyUsageDigitalSignature : Nat := 1

/-- Go `x509.KeyUsageContentCommitment` bit. -/
def KeyUsageContentCommitment : Nat := 2

/-- Go `x509.KeyUsageKeyEncipherment` bit. -/
def KeyUsageKeyEncipherment : Nat := 4

/-- The `x509.Certificate` template fields set by `createCertificateTemplate`.
Times are `Int` nanoseconds, key usage is the Go bitmask. -/
structure X509Certificate where
  serialNumber : Nat
  subject : PkixName
  notBefore : Int
  notAfter : Int
  keyUsage : Nat
  extKeyUsage : List ExtKeyUsage
  basicConstraintsValid : Bool
  dnsNames : List String
deriving DecidableEq, Repr

/-- Go `time.Hour` in nanoseconds. -/
def timeHour : Int := 3600000000000

/-- `CertificateGenerator` from the store unit; the root key is an abstract
handle (an RSA private key is never inspected by the cache logic). -/
structure CertificateGenerator where
  keySize : Nat
  organization : String
  validityDays : Nat
  rootCert : Option X509Certificate
  rootKey : Option Nat
deriving DecidableEq, Repr

/-- The generator built by `NewCertificateStore`: 2048-bit keys,
organization "MITM Security Proxy", 30-day validity, roots unset. -/
def defaultGenerator : CertificateGenerator :=
  { keySize := 2048
    organization := "MITM Security Proxy"
    validityDays := 30
    rootCert := none
    rootKey := none }

/-- `createCertificateTemplate`.  The serial number is the value drawn by
`rand.Int(rand.Reader, big.NewInt(1<<62))` (hence `< 2^62`), `now` the
value of `time.Now()`; both are passed in because they are effectful. -/
def createCertificateTemplate (g : CertificateGenerator) (hostname : String)
    (serialNumber : Nat) (now : Int) : X509Certificate :=
  { serialNumber := serialNumber
    subject := { commonName := hostname, organization := [g.organization] }
    notBefore := now - timeHour
    notAfter := now + (g.validityDays : Int) * 24 * timeHour
    keyUsage := KeyUsageKeyEncipherment ||| KeyUsageDigitalSignature
    extKeyUsage := [ExtKeyUsage.serverAuth]
    basicConstraintsValid := true
    dnsNames := [hostname] }

/-- `validateConfiguration`: fails unless both root cert and root key are
set on the generator. -/
def validateConfiguration (g : CertificateGenerator) : Except String Unit :=
  match g.rootCert, g.rootKey with
  | some _, some _ => Except.ok ()
  | _, _ => Except.error "root cert or key not initialized"

/-- A `tls.Certificate` bundle; the signed leaf carries the template
fields (x509.CreateCertificate copies them into the issued certificate).
RSA key material is not inspected by any claim, so it is not carried. -/
structure TLSCertificate where
  leaf : X509Certificate
deriving DecidableEq, Repr

/-- `generateCertificate`: validate the configuration, then build the
template and the TLS bundle.  RSA key generation and signing failures
(pure library effects that do not influence the template fields) are
abstracted away. -/
def generateCertificate (g : CertificateGenerator) (hostname : String)
    (serialNumber : Nat) (now : Int) : Except String TLSCertificate :=
  match validateConfiguration g with
  | Except.error e => Except.error e
  | Except.ok _ =>
      Except.ok { leaf := createCertificateTemplate g hostname serialNumber now }

/-- `CertificateStore`: the hostname-keyed leaf cache plus its generator. -/
structure CertificateStore where
  cache : List (String × TLSCertificate)
  generator : CertificateGenerator
deriving DecidableEq, Repr

/-- `NewCertificateStore`: empty cache, default generator. -/
def NewCertificateStore : CertificateStore :=
  { cache := [], generator := defaultGenerator }

/-- Outcome oracle for one invocation of `s.generator.generateCertificate`
(which draws fresh randomness and reads the clock on every call). -/
def MintFn : Type := String → Except String TLSCertificate

/-- `createAndStoreCertificate`: under the write lock, re-check the cache
(double-checked publication), mint on a miss, insert, return.  The key is
absent in the insert branch, so consing models the Go map insert. -/
def createAndStoreCertificate (mint : MintFn) (s : CertificateStore)
    (hostname : String) : Except String (TLSCertificate × CertificateStore) :=
  match mapFind hostname s.cache with
  | some cert => Except.ok (cert, s)
  | none =>
      match mint hostname with
      | Except.error _ => Except.error "certificate generation error"
      | Except.ok cert =>
          Except.ok (cert, { s with cache := (hostname, cert) :: s.cache })

/-- `GetOrCreateCertificate`: read-locked lookup, then the slow path. -/
def GetOrCreateCertificate (mint : MintFn) (s : CertificateStore)
    (hostname : String) : Except String (TLSCertificate × CertificateStore) :=
  match mapFind hostname s.cache with
  | some cert => Except.ok (cert, s)
  | none => createAndStoreCertificate mint s hostname

/-- A concrete bundle used for evaluation, distinguished by serial. -/
def mkCert (n : Nat) : TLSCertificate :=
  { leaf :=
    { serialNumber := n
      subject := { commonName := "", organization := [] }
      notBefore := 0
      notAfter := 0
      keyUsage := 0
      extKeyUsage := []
      basicConstraintsValid := false
      dnsNames := [] } }

/-- Claim C1: after a successful `GetOrCreateCertificate` call for a
hostname, a second call for the same hostname returns the very same
bundle and leaves the store unchanged (no second mint occurs, whatever
that mint would produce), and every entry present before the first call
is still present, unmodified, afterwards. -/
theorem GetOrCreateCertificate_repeat (mint mint2 : MintFn)
    (s : CertificateStore) (h : String) (c : TLSCertificate)
    (s2 : CertificateStore)
    (hc : GetOrCreateCertificate mint s h = Except.ok (c, s2)) :
    GetOrCreateCertificate mint2 s2 h = Except.ok (c, s2) ∧
    (∀ k c0, mapFind k s.cache = some c0 → mapFind k s2.cache = some c0) := by
  unfold GetOrCreateCertificate createAndStoreCertificate at hc
  cases hfind : mapFind h s.cache with
  | some c0 =>
      rw [hfind] at hc
      simp only [Except.ok.injEq, Prod.mk.injEq] at hc
      obtain ⟨h1, h2⟩ := hc
      subst h1; subst h2
      refine ⟨?_, ?_⟩
      · unfold GetOrCreateCertificate
        rw [hfind]
      · intro k c1 hk
        exact hk
  | none =>
      rw [hfind] at hc
      cases hmint : mint h with
      | error e =>
          rw [hmint] at hc
          simp at hc
      | ok cert =>
          rw [hmint] at hc
          simp only [Except.ok.injEq, Prod.mk.injEq] at hc
          obtain ⟨h1, h2⟩ := hc
          subst h1
          refine ⟨?_, ?_⟩
          · unfold GetOrCreateCertificate
            rw [← h2]
            simp [mapFind, ← h2]
          · intro k c1 hk
            rw [← h2]
            simp only [mapFind]
            by_cases hek : h = k
            · subst hek
              rw [hfind] at hk
              exact absurd hk (by simp)
            · simp [hek, hk]

/-- Witness for C1 at a concrete input: populate the cache for "a.test",
then observe the second call return the cached bundle unchanged. -/
def storeA : CertificateStore :=
  { cache := [("a.test", mkCert 1)], generator := defaultGenerator }

theorem GetOrCreateCertificate_repeat_witness :
    GetOrCreateCertificate (fun _ => Except.error "unused") storeA "a.test" =
      Except.ok (mkCert 1, storeA) :=
  (GetOrCreateCertificate_repeat (fun _ => Except.ok (mkCert 1))
    (fun _ => Except.error "unused") NewCertificateStore "a.test"
    (mkCert 1) storeA rfl).1

/-- Claim C2: whenever minting succeeds for a hostname under the default
configuration (organization "MITM Security Proxy", 30 validity days), the
leaf template has subject CN and DNS SAN list exactly the hostname,
validity from now minus one hour to now plus 30 days, key usage
digitalSignature plus keyEncipherment, extended key usage serverAuth
only, and the serial drawn by rand.Int lies in [0, 2^62). -/
theorem generateCertificate_template_fields (g : CertificateGenerator)
    (hostname : String) (serial : Nat) (now : Int) (cert : TLSCertificate)
    (horg : g.organization = "MITM Security Proxy")
    (hdays : g.validityDays = 30)
    (hserial : serial < 2 ^ 62)
    (hmint : generateCertificate g hostname serial now = Except.ok cert) :
    cert.leaf.subject.commonName = hostname ∧
    cert.leaf.dnsNames = [hostname] ∧
    cert.leaf.subject.organization = ["MITM Security Proxy"] ∧
    cert.leaf.notBefore = now - timeHour ∧
    cert.leaf.notAfter = now + 30 * 24 * timeHour ∧
    cert.leaf.keyUsage = (KeyUsageDigitalSignature ||| KeyUsageKeyEncipherment) ∧
    cert.leaf.extKeyUsage = [ExtKeyUsage.serverAuth] ∧
    cert.leaf.serialNumber = serial ∧
    cert.leaf.serialNumber < 2 ^ 62 := by
  unfold generateCertificate at hmint
  cases hval : validateConfiguration g with
  | error e => rw [hval] at hmint; simp at hmint
  | ok u =>
      rw [hval] at hmint
      simp only [Except.ok.injEq] at hmint
      subst hmint
      unfold createCertificateTemplate
      refine ⟨rfl, rfl, by simp [horg], rfl, by simp [hdays], ?_, rfl, rfl, hserial⟩
      show KeyUsageKeyEncipherment ||| KeyUsageDigitalSignature =
        KeyUsageDigitalSignature ||| KeyUsageKeyEncipherment
      decide

/-- A stub root certificate so that `validateConfiguration` passes. -/
def rootStub : X509Certificate :=
  { serialNumber := 0
    subject := { commonName := "root", organization := [] }
    notBefore := 0
    notAfter := 0
    keyUsage := 0
    extKeyUsage := []
    basicConstraintsValid := true
    dnsNames := [] }

/-- A generator with the default parameters and the CA material set. -/
def readyGenerator : CertificateGenerator :=
  { defaultGenerator with rootCert := some rootStub, rootKey := some 0 }

theorem generateCertificate_template_fields_witness :
    (generateCertificate readyGenerator "example.test" 5 1000000000000 =
      Except.ok { leaf := createCertificateTemplate readyGenerator "example.test" 5 1000000000000 }) ∧
    (createCertificateTemplate readyGenerator "example.test" 5 1000000000000).subject.commonName
      = "example.test" :=
  ⟨rfl,
    (generateCertificate_template_fields readyGenerator "example.test" 5
      1000000000000
      { leaf := createCertificateTemplate readyGenerator "example.test" 5 1000000000000 }
      rfl rfl (by decide) rfl).1⟩

/-- The store state after a first call for the mixed-case name. -/
def storeUpper : CertificateStore :=
  { cache := [("A.test", mkCert 1)], generator := defaultGenerator }

/-- Counterexample to claim C5 (the cache is keyed by the lowercased
hostname): the store never lowercases.  After "A.test" is cached, a call
with its lowercased form "a.test" misses the cache and mints a fresh
bundle, so the two calls do not address the same entry and return
different bundles. -/
theorem GetOrCreateCertificate_not_lowercased :
    GetOrCreateCertificate (fun _ => Except.ok (mkCert 1))
        NewCertificateStore "A.test" = Except.ok (mkCert 1, storeUpper) ∧
    toLowerStr "A.test" = "a.test" ∧
    GetOrCreateCertificate (fun _ => Except.ok (mkCert 2))
        storeUpper "a.test" =
      Except.ok (mkCert 2,
        { cache := [("a.test", mkCert 2), ("A.test", mkCert 1)]
          generator := defaultGenerator }) ∧
    mkCert 1 ≠ mkCert 2 := by
  refine ⟨rfl, rfl, rfl, by decide⟩

/-- Claim C5 amended: the cache is keyed by the hostname string exactly as
passed (case-sensitive, no lowercasing).  A successful call publishes the
bundle under the verbatim hostname key and touches no other key, so only
repeated calls with the identical string are guaranteed the same bundle. -/
theorem GetOrCreateCertificate_exact_key (mint : MintFn)
    (s : CertificateStore) (h : String) (c : TLSCertificate)
    (s2 : CertificateStore)
    (hc : GetOrCreateCertificate mint s h = Except.ok (c, s2)) :
    mapFind h s2.cache = some c ∧
    (∀ k, k ≠ h → mapFind k s2.cache = mapFind k s.cache) := by
  unfold GetOrCreateCertificate createAndStoreCertificate at hc
  cases hfind : mapFind h s.cache with
  | some c0 =>
      rw [hfind] at hc
      simp only [Except.ok.injEq, Prod.mk.injEq] at hc
      obtain ⟨h1, h2⟩ := hc
      subst h1; subst h2
      exact ⟨hfind, fun k _ => rfl⟩
  | none =>
      rw [hfind] at hc
      cases hmint : mint h with
      | error e =>
          rw [hmint] at hc
          simp at hc
      | ok cert =>
          rw [hmint] at hc
          simp only [Except.ok.injEq, Prod.mk.injEq] at hc
          obtain ⟨h1, h2⟩ := hc
          subst h1
          refine ⟨?_, ?_⟩
          · rw [← h2]; simp [mapFind]
          · intro k hk
            rw [← h2]
            simp only [mapFind]
            rw [if_neg (fun he => hk he.symm)]

theorem GetOrCreateCertificate_exact_key_witness :
    mapFind "A.test" storeUpper.cache = some (mkCert 1) :=
  (GetOrCreateCertificate_exact_key (fun _ => Except.ok (mkCert 1))
    NewCertificateStore "A.test" (mkCert 1) storeUpper rfl).1

/- ------------------------------------------------------------------ -/
/- CA material loader (CertificateManager unit).                       -/
/- ------------------------------------------------------------------ -/

/-- A `pem.Block`: the type label and the body bytes. -/
structure PemBlock where
  type : String
  bytes : List Nat
deriving DecidableEq, Repr

/-- An `x509.Certificate` as produced by `x509.ParseCertificate`;
only the embedded public key matters to the claims, kept as an
abstract handle. -/
structure ParsedCert where
  pubKey : Nat
deriving DecidableEq, Repr

/-- An `rsa.PrivateKey`; `pubKey` is the public key derived from it. -/
structure RSAPrivateKey where
  pubKey : Nat
deriving DecidableEq, Repr

/-- The effectful library surface the loader uses: `os.ReadFile`
(`none` = unreadable), `pem.Decode` (`none` = no block found; otherwise
the first block and the remaining bytes), `x509.ParseCertificate` and
`x509.ParsePKCS1PrivateKey` (`none` = parse failure). -/
structure CAWorld where
  readFile : String → Option (List Nat)
  pemDecode : List Nat → Option (PemBlock × List Nat)
  parseCertificate : List Nat → Option ParsedCert
  parsePKCS1PrivateKey : List Nat → Option RSAPrivateKey

/-- `CertificateManager`: the process-wide holder of the CA material. -/
structure CMState where
  rootCertificate : Option ParsedCert
  privateKey : Option RSAPrivateKey
deriving DecidableEq, Repr

/-- The zero-value `certManager` the process starts with. -/
def certManagerInit : CMState := { rootCertificate := none, privateKey := none }

/-- `readSecureFile`: error on an unreadable or empty file. -/
def readSecureFile (w : CAWorld) (path : String) : Except String (List Nat) :=
  match w.readFile path with
  | none => Except.error "file read error"
  | some content =>
      if content.length = 0 then Except.error "file is empty"
      else Except.ok content

/-- `loadCertificateFiles`: read the certificate file, then the key file. -/
def loadCertificateFiles (w : CAWorld) (certPath keyPath : String) :
    Except String (List Nat × List Nat) :=
  match readSecureFile w certPath with
  | Except.error e => Except.error e
  | Except.ok certContent =>
      match readSecureFile w keyPath with
      | Except.error e => Except.error e
      | Except.ok keyContent => Except.ok (certContent, keyContent)

/-- `parseCertificateBlock`: exactly one PEM block with no trailing
bytes, labelled CERTIFICATE, parsing as X.509. -/
def parseCertificateBlock (w : CAWorld) (data : List Nat) :
    Except String ParsedCert :=
  match w.pemDecode data with
  | none => Except.error "bad certificate PEM format"
  | some (b, rest) =>
      if rest.length > 0 then Except.error "bad certificate PEM format"
      else if b.type ≠ "CERTIFICATE" then Except.error "wrong PEM block type"
      else
        match w.parseCertificate b.bytes with
        | none => Except.error "certificate parse error"
        | some c => Except.ok c

/-- `parsePrivateKeyBlock`: exactly one PEM block with no trailing
bytes, labelled RSA PRIVATE KEY, parsing as PKCS#1. -/
def parsePrivateKeyBlock (w : CAWorld) (data : List Nat) :
    Except String RSAPrivateKey :=
  match w.pemDecode data with
  | none => Except.error "bad key PEM format"
  | some (b, rest) =>
      if rest.length > 0 then Except.error "bad key PEM format"
      else if b.type ≠ "RSA PRIVATE KEY" then Except.error "wrong PEM block type"
      else
        match w.parsePKCS1PrivateKey b.bytes with
        | none => Except.error "private key parse error"
        | some k => Except.ok k

/-- `processCertificateData`: parse the certificate, then the key, and
only then assign both fields of the manager. -/
def processCertificateData (w : CAWorld) (cm : CMState)
    (certData keyData : List Nat) : CMState × Option String :=
  match parseCertificateBlock w certData with
  | Except.error e => (cm, some e)
  | Except.ok cert =>
      match parsePrivateKeyBlock w keyData with
      | Except.error e => (cm, some e)
      | Except.ok key =>
          ({ rootCertificate := some cert, privateKey := some key }, none)

/-- `InitializeCertificateAuthority`: load both files, then process. -/
def InitializeCertificateAuthority (w : CAWorld) (cm : CMState)
    (certPath keyPath : String) : CMState × Option String :=
  match loadCertificateFiles w certPath keyPath with
  | Except.error e => (cm, some e)
  | Except.ok (certData, keyData) => processCertificateData w cm certData keyData

/-- `LoadCA` delegates to `InitializeCertificateAuthority`. -/
def LoadCA (w : CAWorld) (cm : CMState) (certPath keyPath : String) :
    CMState × Option String :=
  InitializeCertificateAuthority w cm certPath keyPath

/-- The file is unreadable or empty. -/
def fileBad (w : CAWorld) (path : String) : Prop :=
  w.readFile path = none ∨ w.readFile path = some []

/-- The certificate bytes fail PEM decoding (no block or trailing
bytes), carry the wrong label, or fail X.509 parsing. -/
def certBlockBad (w : CAWorld) (d : List Nat) : Prop :=
  match w.pemDecode d with
  | none => True
  | some (b, rest) =>
      rest ≠ [] ∨ b.type ≠ "CERTIFICATE" ∨ w.parseCertificate b.bytes = none

/-- The key bytes fail PEM decoding, carry the wrong label, or fail
PKCS#1 parsing. -/
def keyBlockBad (w : CAWorld) (d : List Nat) : Prop :=
  match w.pemDecode d with
  | none => True
  | some (b, rest) =>
      rest ≠ [] ∨ b.type ≠ "RSA PRIVATE KEY" ∨ w.parsePKCS1PrivateKey b.bytes = none

theorem readSecureFile_ok_iff (w : CAWorld) (p : String) (cd : List Nat) :
    readSecureFile w p = Except.ok cd ↔ (w.readFile p = some cd ∧ cd ≠ []) := by
  unfold readSecureFile
  cases h : w.readFile p with
  | none => simp
  | some content =>
      by_cases hl : content.length = 0
      · rw [List.length_eq_zero] at hl
        subst hl
        simp
      · have hne : content ≠ [] := by
          intro hc; subst hc; simp at hl
        simp only [if_neg hl]
        constructor
        · intro hk
          simp only [Except.ok.injEq] at hk
          subst hk
          exact ⟨rfl, hne⟩
        · rintro ⟨h1, _⟩
          simp only [Option.some.injEq] at h1
          subst h1
          rfl

theorem readSecureFile_error_iff (w : CAWorld) (p : String) :
    (∃ e, readSecureFile w p = Except.error e) ↔ fileBad w p := by
  unfold readSecureFile fileBad
  cases h : w.readFile p with
  | none => simp
  | some content =>
      by_cases hl : content.length = 0
      · rw [List.length_eq_zero] at hl
        subst hl
        simp
      · have hne : content ≠ [] := by
          intro hc; subst hc; simp at hl
        simp only [if_neg hl]
        constructor
        · rintro ⟨e, he⟩
          simp at he
        · rintro (h1 | h1)
          · simp at h1
          · simp only [Option.some.injEq] at h1
            exact absurd h1 hne

theorem parseCertificateBlock_cases (w : CAWorld) (d : List Nat) :
    (certBlockBad w d ∧ ∃ e, parseCertificateBlock w d = Except.error e) ∨
    (¬ certBlockBad w d ∧ ∃ c, parseCertificateBlock w d = Except.ok c) := by
  unfold certBlockBad parseCertificateBlock
  cases hd : w.pemDecode d with
  | none => exact Or.inl ⟨trivial, _, rfl⟩
  | some pr =>
      obtain ⟨b, rest⟩ := pr
      by_cases hr : rest = []
      · subst hr
        simp only [List.length_nil, gt_iff_lt, Nat.lt_irrefl, if_false]
        by_cases ht : b.type = "CERTIFICATE"
        · simp only [ht, ne_eq, not_true_eq_false, if_false]
          cases hpc : w.parseCertificate b.bytes with
          | none =>
              exact Or.inl ⟨by simp [ht, hpc], "certificate parse error",
                by simp [ht, hpc]⟩
          | some c => exact Or.inr ⟨by simp [ht, hpc], c, by simp [ht, hpc]⟩
        · exact Or.inl ⟨by simp [ht], "wrong PEM block type", by simp [ht]⟩
      · have hlen : rest.length > 0 := by
          cases rest with
          | nil => exact absurd rfl hr
          | cons a l => simp
        exact Or.inl ⟨by simp [hr], "bad certificate PEM format", by simp [hlen]⟩

theorem parsePrivateKeyBlock_cases (w : CAWorld) (d : List Nat) :
    (keyBlockBad w d ∧ ∃ e, parsePrivateKeyBlock w d = Except.error e) ∨
    (¬ keyBlockBad w d ∧ ∃ k, parsePrivateKeyBlock w d = Except.ok k) := by
  unfold keyBlockBad parsePrivateKeyBlock
  cases hd : w.pemDecode d with
  | none => exact Or.inl ⟨trivial, _, rfl⟩
  | some pr =>
      obtain ⟨b, rest⟩ := pr
      by_cases hr : rest = []
      · subst hr
        simp only [List.length_nil, gt_iff_lt, Nat.lt_irrefl, if_false]
        by_cases ht : b.type = "RSA PRIVATE KEY"
        · simp only [ht, ne_eq, not_true_eq_false, if_false]
          cases hpc : w.parsePKCS1PrivateKey b.bytes with
          | none =>
              exact Or.inl ⟨by simp [ht, hpc], "private key parse error",
                by simp [ht, hpc]⟩
          | some k => exact Or.inr ⟨by simp [ht, hpc], k, by simp [ht, hpc]⟩
        · exact Or.inl ⟨by simp [ht], "wrong PEM block type", by simp [ht]⟩
      · have hlen : rest.length > 0 := by
          cases rest with
          | nil => exact absurd rfl hr
          | cons a l => simp
        exact Or.inl ⟨by simp [hr], "bad key PEM format", by simp [hlen]⟩

/-- Claim C3: `LoadCA` fails exactly when one of the input files is
unreadable or empty, or the certificate bytes or key bytes fail the PEM
single-block / label / parse checks; otherwise it succeeds and publishes
the parsed certificate and key. -/
theorem LoadCA_error_iff (w : CAWorld) (cm : CMState) (cp kp : String) :
    ((∃ e, (LoadCA w cm cp kp).2 = some e) ↔
      (fileBad w cp ∨ fileBad w kp ∨
        ∃ cd kd, w.readFile cp = some cd ∧ w.readFile kp = some kd ∧
          (certBlockBad w cd ∨ keyBlockBad w kd))) ∧
    ((LoadCA w cm cp kp).2 = none →
      ∃ cd kd c k, w.readFile cp = some cd ∧ w.readFile kp = some kd ∧
        parseCertificateBlock w cd = Except.ok c ∧
        parsePrivateKeyBlock w kd = Except.ok k ∧
        (LoadCA w cm cp kp).1 =
          { rootCertificate := some c, privateKey := some k }) := by
  unfold LoadCA InitializeCertificateAuthority loadCertificateFiles
  cases hrc : readSecureFile w cp with
  | error e =>
      refine ⟨⟨fun _ => Or.inl ((readSecureFile_error_iff w cp).1 ⟨e, hrc⟩),
        fun _ => ⟨e, rfl⟩⟩, fun hnone => ?_⟩
      simp at hnone
  | ok cd =>
      obtain ⟨hcp, hcd⟩ := (readSecureFile_ok_iff w cp cd).1 hrc
      cases hrk : readSecureFile w kp with
      | error e =>
          refine ⟨⟨fun _ => Or.inr (Or.inl ((readSecureFile_error_iff w kp).1 ⟨e, hrk⟩)),
            fun _ => ⟨e, rfl⟩⟩, fun hnone => ?_⟩
          simp at hnone
      | ok kd =>
          obtain ⟨hkp, hkd⟩ := (readSecureFile_ok_iff w kp kd).1 hrk
          simp only [processCertificateData]
          rcases parseCertificateBlock_cases w cd with ⟨hbad, e, he⟩ | ⟨hgood, c, hc⟩
          · rw [he]
            refine ⟨⟨fun _ => Or.inr (Or.inr ⟨cd, kd, hcp, hkp, Or.inl hbad⟩),
              fun _ => ⟨e, rfl⟩⟩, fun hnone => ?_⟩
            simp at hnone
          · rw [hc]
            rcases parsePrivateKeyBlock_cases w kd with ⟨hkbad, e, he⟩ | ⟨hkgood, k, hk⟩
            · rw [he]
              refine ⟨⟨fun _ => Or.inr (Or.inr ⟨cd, kd, hcp, hkp, Or.inr hkbad⟩),
                fun _ => ⟨e, rfl⟩⟩, fun hnone => ?_⟩
              simp at hnone
            · rw [hk]
              refine ⟨⟨fun he2 => ?_, fun hbad => ?_⟩,
                fun _ => ⟨cd, kd, c, k, hcp, hkp, hc, hk, rfl⟩⟩
              · obtain ⟨e2, he2⟩ := he2
                simp at he2
              · exfalso
                rcases hbad with hf | hf | ⟨cd2, kd2, hcp2, hkp2, hb⟩
                · rcases hf with h0 | h0
                  · rw [h0] at hcp; exact absurd hcp (by simp)
                  · rw [h0] at hcp
                    simp only [Option.some.injEq] at hcp
                    exact hcd hcp.symm
                · rcases hf with h0 | h0
                  · rw [h0] at hkp; exact absurd hkp (by simp)
                  · rw [h0] at hkp
                    simp only [Option.some.injEq] at hkp
                    exact hkd hkp.symm
                · rw [hcp] at hcp2
                  rw [hkp] at hkp2
                  simp only [Option.some.injEq] at hcp2 hkp2
                  subst hcp2; subst hkp2
                  rcases hb with hb | hb
                  · exact hgood hb
                  · exact hkgood hb

/-- A loader world in which both files read and parse cleanly. -/
def wOk : CAWorld :=
  { readFile := fun p => if p = "ca.crt" then some [1] else some [3]
    pemDecode := fun d =>
      if d = [1] then some ({ type := "CERTIFICATE", bytes := [2] }, [])
      else if d = [3] then some ({ type := "RSA PRIVATE KEY", bytes := [4] }, [])
      else none
    parseCertificate := fun d => if d = [2] then some { pubKey := 7 } else none
    parsePKCS1PrivateKey := fun d => if d = [4] then some { pubKey := 7 } else none }

theorem LoadCA_error_iff_witness :
    ∃ cd kd c k, wOk.readFile "ca.crt" = some cd ∧ wOk.readFile "ca.key" = some kd ∧
      parseCertificateBlock wOk cd = Except.ok c ∧
      parsePrivateKeyBlock wOk kd = Except.ok k ∧
      (LoadCA wOk certManagerInit "ca.crt" "ca.key").1 =
        { rootCertificate := some c, privateKey := some k } :=
  (LoadCA_error_iff wOk certManagerInit "ca.crt" "ca.key").2 rfl

/-- A loader world whose certificate and key parse individually but whose
public keys disagree (the certificate holds key 10, the private key
corresponds to key 20). -/
def wMismatch : CAWorld :=
  { readFile := fun p => if p = "ca.crt" then some [1] else some [3]
    pemDecode := fun d =>
      if d = [1] then some ({ type := "CERTIFICATE", bytes := [2] }, [])
      else if d = [3] then some ({ type := "RSA PRIVATE KEY", bytes := [4] }, [])
      else none
    parseCertificate := fun d => if d = [2] then some { pubKey := 10 } else none
    parsePKCS1PrivateKey := fun d => if d = [4] then some { pubKey := 20 } else none }

/-- Counterexample to claim C4 (a public-key mismatch between the loaded
root certificate and the root private key makes CA loading fail): with a
mismatched pair that individually parses, `LoadCA` succeeds and publishes
the mismatched pair; no comparison of the public keys is ever made. -/
theorem LoadCA_mismatch_accepted :
    LoadCA wMismatch certManagerInit "ca.crt" "ca.key" =
      ({ rootCertificate := some { pubKey := 10 },
         privateKey := some { pubKey := 20 } }, none) ∧
    (10 : Nat) ≠ 20 := ⟨rfl, by decide⟩

/-- Claim C4 amended: CA loading succeeds for every certificate/key file
pair that individually parses correctly, with no check that the
certificate's public key matches the private key; a mismatched pair is
published as-is. -/
theorem LoadCA_no_match_check (w : CAWorld) (cm : CMState) (cp kp : String)
    (cd kd : List Nat) (c : ParsedCert) (k : RSAPrivateKey)
    (hcp : w.readFile cp = some cd) (hcd : cd ≠ [])
    (hkp : w.readFile kp = some kd) (hkd : kd ≠ [])
    (hc : parseCertificateBlock w cd = Except.ok c)
    (hk : parsePrivateKeyBlock w kd = Except.ok k) :
    LoadCA w cm cp kp =
      ({ rootCertificate := some c, privateKey := some k }, none) := by
  unfold LoadCA InitializeCertificateAuthority loadCertificateFiles
  rw [(readSecureFile_ok_iff w cp cd).2 ⟨hcp, hcd⟩,
    (readSecureFile_ok_iff w kp kd).2 ⟨hkp, hkd⟩]
  simp only [processCertificateData]
  rw [hc, hk]

theorem LoadCA_no_match_check_witness :
    LoadCA wMismatch certManagerInit "ca.crt" "ca.key" =
      ({ rootCertificate := some { pubKey := 10 },
         privateKey := some { pubKey := 20 } }, none) :=
  LoadCA_no_match_check wMismatch certManagerInit "ca.crt" "ca.key"
    [1] [3] { pubKey := 10 } { pubKey := 20 }
    rfl (by decide) rfl (by decide) rfl rfl

/-- Claim C10: `processCertificateData` assigns the manager's fields only
after both the certificate and the key have parsed; on any failure the
state is returned unchanged, and the same holds for a failing `LoadCA`,
so a failed load never publishes a partial pair. -/
theorem processCertificateData_atomic (w : CAWorld) (cm : CMState)
    (cd kd : List Nat) (cp kp : String) :
    ((∃ e, (processCertificateData w cm cd kd).2 = some e) →
      (processCertificateData w cm cd kd).1 = cm) ∧
    ((processCertificateData w cm cd kd).2 = none →
      ∃ c k, parseCertificateBlock w cd = Except.ok c ∧
        parsePrivateKeyBlock w kd = Except.ok k ∧
        (processCertificateData w cm cd kd).1 =
          { rootCertificate := some c, privateKey := some k }) ∧
    ((∃ e, (LoadCA w cm cp kp).2 = some e) → (LoadCA w cm cp kp).1 = cm) := by
  refine ⟨?_, ?_, ?_⟩
  · intro _
    unfold processCertificateData
    cases hc : parseCertificateBlock w cd with
    | error e => rfl
    | ok c =>
        cases hk : parsePrivateKeyBlock w kd with
        | error e => rfl
        | ok k =>
            exfalso
            rename_i he
            obtain ⟨e, he⟩ := he
            unfold processCertificateData at he
            rw [hc, hk] at he
            simp at he
  · intro hnone
    unfold processCertificateData at hnone ⊢
    cases hc : parseCertificateBlock w cd with
    | error e => rw [hc] at hnone; simp at hnone
    | ok c =>
        cases hk : parsePrivateKeyBlock w kd with
        | error e => rw [hc, hk] at hnone; simp at hnone
        | ok k =>
            exact ⟨c, k, rfl, rfl, rfl⟩
  · intro he
    unfold LoadCA InitializeCertificateAuthority at he ⊢
    cases hl : loadCertificateFiles w cp kp with
    | error e => rfl
    | ok pr =>
        obtain ⟨cd2, kd2⟩ := pr
        rw [hl] at he
        replace he : ∃ e, (processCertificateData w cm cd2 kd2).2 = some e := he
        show (processCertificateData w cm cd2 kd2).1 = cm
        unfold processCertificateData at he ⊢
        cases hc : parseCertificateBlock w cd2 with
        | error e => rfl
        | ok c =>
            cases hk : parsePrivateKeyBlock w kd2 with
            | error e => rfl
            | ok k =>
                exfalso
                obtain ⟨e, he⟩ := he
                rw [hc] at he
                rw [hk] at he
                simp at he

/-- A loader world in which every PEM decode fails. -/
def wBadPem : CAWorld :=
  { readFile := fun _ => some [9]
    pemDecode := fun _ => none
    parseCertificate := fun _ => none
    parsePKCS1PrivateKey := fun _ => none }

theorem processCertificateData_atomic_witness :
    (processCertificateData wBadPem certManagerInit [9] [9]).1 = certManagerInit :=
  (processCertificateData_atomic wBadPem certManagerInit [9] [9]
    "ca.crt" "ca.key").1 ⟨"bad certificate PEM format", rfl⟩

/- ------------------------------------------------------------------ -/
/- Plain-HTTP forwarding: ConnectionHandler and RequestProcessor.      -/
/- ------------------------------------------------------------------ -/

/-- The observable fields of a parsed `net/url.URL`: `host` is `URL.Host`
(authority, possibly with port), `hostname` is `URL.Hostname()`, `port`
is `URL.Port()` (empty when absent), `requestURI` is `URL.RequestURI()`.
`url.Parse` itself is library code, so its output is taken as given. -/
structure URL where
  scheme : String
  host : String
  hostname : String
  port : String
  requestURI : String
deriving DecidableEq, Repr

/-- A header retained by `ConnectionHandler`. -/
structure HeaderLine where
  name : String
  value : String
deriving DecidableEq, Repr

/-- `RequestData`: the parsed request held by a `ConnectionHandler`. -/
structure RequestData where
  method : String
  targetURL : String
  httpVersion : String
  headers : List HeaderLine
  body : List Nat
deriving DecidableEq, Repr

/-- Go `strings.SplitN(s, sep, 2)`: at most one split, at the first
occurrence of the separator. -/
def splitN2 (s sep : String) : List String :=
  match s.splitOn sep with
  | [] => [s]
  | [x] => [x]
  | x :: rest => [x, String.intercalate sep rest]

/-- `parseHeaderLine` (ConnectionHandler): split at the first colon, trim
both sides, drop the header when its lowercased name is
proxy-connection. -/
def parseHeaderLine (line : String) : Option HeaderLine :=
  match splitN2 line ":" with
  | [p0, p1] =>
      let name := p0.trim
      let value := p1.trim
      if toLowerStr name = "proxy-connection" then none
      else some { name := name, value := value }
  | _ => none

/-- `parseHeaders` (ConnectionHandler): the loop body applied to the
trimmed non-blank header lines read before the blank terminator; lines
`parseHeaderLine` rejects are not appended. -/
def parseHeaders (lines : List String) : List HeaderLine :=
  lines.filterMap parseHeaderLine

/-- `hasHeader`: case-insensitive membership test on the header list. -/
def hasHeader (headers : List HeaderLine) (name : String) : Bool :=
  headers.any (fun h => toLowerStr h.name == toLowerStr name)

/-- One result of `reader.Read` under the 5-second read deadline: a
non-empty chunk, end of stream, or expiry of the deadline (a non-EOF
error). -/
inductive ReadEvent where
  | chunk (bytes : List Nat)
  | eof
  | timeout
deriving DecidableEq, Repr

/-- The accumulation loop of `readRequestBody`: append chunk bytes,
succeed with the accumulated body on EOF, fail on any other error. -/
def readBodyLoop : List ReadEvent → List Nat → Except String (List Nat)
  | [], _ => Except.error "stream exhausted"
  | ReadEvent.chunk bs :: rest, acc => readBodyLoop rest (acc ++ bs)
  | ReadEvent.eof :: _, acc => Except.ok acc
  | ReadEvent.timeout :: _, _ => Except.error "i/o timeout"

/-- `readRequestBody` (ConnectionHandler): no body for GET or HEAD;
otherwise read under the 5-second deadline until EOF (success) or any
other error such as deadline expiry (failure, which aborts request
parsing). -/
def readRequestBody (method : String) (events : List ReadEvent) :
    Except String (List Nat) :=
  if method = "GET" ∨ method = "HEAD" then Except.ok []
  else readBodyLoop events []

/-- The request line `sendRequest` writes: the path is the literal "/",
whatever the target URL was. -/
def sendRequestLine (rd : RequestData) : String :=
  rd.method ++ " / " ++ rd.httpVersion ++ "\r\n"

/-- The header `name: value` pairs `sendRequest` writes, in order: the
retained headers, then a synthesized Host when none is present. -/
def sendRequestHeaderPairs (rd : RequestData) (u : URL) :
    List (String × String) :=
  rd.headers.map (fun h => (h.name, h.value)) ++
  (if hasHeader rd.headers "Host" then [] else [("Host", u.host)])

/-- Serialize header pairs as `name: value CRLF` lines. -/
def headerLinesString (pairs : List (String × String)) : String :=
  String.join (pairs.map (fun kv => kv.1 ++ ": " ++ kv.2 ++ "\r\n"))

/-- The full header section `sendRequest` writes: request line, header
lines, blank line. -/
def sendRequestString (rd : RequestData) (u : URL) : String :=
  sendRequestLine rd ++ headerLinesString (sendRequestHeaderPairs rd u) ++ "\r\n"

/-- Everything `sendRequest` writes to the origin: the header section,
then the body bytes (written only when non-empty, which equals writing
the body always). -/
def sendRequestOutput (rd : RequestData) (u : URL) : String × List Nat :=
  (sendRequestString rd u, rd.body)

/-- `establishConnection` (ConnectionHandler): dial `Hostname()` on
`Port()`, defaulting the port to 80 whatever the scheme. -/
def establishConnectionAddr (u : URL) : String × String :=
  (u.hostname, if u.port = "" then "80" else u.port)

/-- `ProcessRequest` on the plain path: parse (including the body read),
then forward; a body-read failure aborts before anything is written.
`u` is the parse of the target (`url.Parse` abstracted); dial failures,
which write nothing, are not modelled. -/
def processRequestOutput (method target version : String)
    (headerLines : List String) (bodyEvents : List ReadEvent) (u : URL) :
    Option (String × List Nat) :=
  match readRequestBody method bodyEvents with
  | Except.error _ => none
  | Except.ok body =>
      some (sendRequestOutput
        { method := method, targetURL := target, httpVersion := version
          headers := parseHeaders headerLines, body := body } u)

/-- `parseHeader` (RequestProcessor): split the trimmed line at the first
colon; the key is lowercased. -/
def parseHeader (line : String) : String × String :=
  match splitN2 line.trim ":" with
  | [p0, p1] => (toLowerStr p0.trim, p1.trim)
  | _ => ("", "")

/-- Go map assignment `m[k] = v`: replace the binding if present,
otherwise add it. -/
def mapInsert (k v : String) :
    List (String × String) → List (String × String)
  | [] => [(k, v)]
  | (k2, v2) :: rest =>
      if k2 = k then (k, v) :: rest else (k2, v2) :: mapInsert k v rest

/-- `collectHeaders` (RequestProcessor): parse each header line into the
lowercase-keyed map, skipping unparseable lines. -/
def collectHeaders (lines : List String) : List (String × String) :=
  lines.foldl (fun m line =>
    let kv := parseHeader line
    if kv.1 ≠ "" then mapInsert kv.1 kv.2 m else m) []

/-- `determinePort` (RequestProcessor): explicit port, else 443 for
https, else 80. -/
def determinePort (u : URL) : String :=
  if u.port ≠ "" then u.port
  else if u.scheme = "https" then "443"
  else "80"

/-- `determinePath` (RequestProcessor): the request-URI, or "/" when it
is empty. -/
def determinePath (u : URL) : String :=
  if u.requestURI ≠ "" then u.requestURI else "/"

/-- `ConnectionDetails` (RequestProcessor plain path). -/
structure ConnectionDetails where
  host : String
  port : String
  path : String
  headers : List (String × String)
deriving DecidableEq, Repr

/-- The request line `sendModifiedRequest` writes. -/
def sendModifiedRequestLine (method path version : String) : String :=
  method ++ " " ++ path ++ " " ++ version ++ "\r\n"

/-- The header pairs `sendModifiedRequest` writes: the collected headers
minus proxy-connection, then a synthesized Host when the map has no
"host" key.  (Go map iteration order is unspecified; the association
list order stands in for one such order.) -/
def sendModifiedRequestHeaderPairs (conn : ConnectionDetails) :
    List (String × String) :=
  conn.headers.filter (fun kv => toLowerStr kv.1 != "proxy-connection") ++
  (if (mapFind "host" conn.headers).isSome then [] else [("Host", conn.host)])

/-- The full header section `sendModifiedRequest` writes. -/
def sendModifiedRequestString (method version : String)
    (conn : ConnectionDetails) : String :=
  sendModifiedRequestLine method conn.path version ++
  headerLinesString (sendModifiedRequestHeaderPairs conn) ++ "\r\n"

/-- Everything `sendModifiedRequest` writes: header section then the
processor's `requestBody`. -/
def sendModifiedRequestOutput (method version : String)
    (conn : ConnectionDetails) (requestBody : List Nat) : String × List Nat :=
  (sendModifiedRequestString method version conn, requestBody)

/-- `handlePlainConnection` (RequestProcessor): collect headers, build
the connection details from the parsed URL, forward.  The processor's
`requestBody` is never assigned on this path, so it keeps its zero
value. -/
def handlePlainConnectionOutput (method version : String) (u : URL)
    (headerLines : List String) : String × List Nat :=
  let headers := collectHeaders headerLines
  let conn : ConnectionDetails :=
    { host := u.hostname, port := determinePort u, path := determinePath u
      headers := headers }
  sendModifiedRequestOutput method version conn []

/-- A parsed plain target URL with a non-empty request path. -/
def urlFoo : URL :=
  { scheme := "http", host := "example.test", hostname := "example.test"
    port := "", requestURI := "/foo" }

/-- The parsed request used in concrete evaluations. -/
def reqFoo : RequestData :=
  { method := "GET", targetURL := "http://example.test/foo"
    httpVersion := "HTTP/1.1", headers := [], body := [] }

/-- Counterexample to claim C6 (the forwarded request line carries the
request-URI of the target URL): `sendRequest` on the ConnectionHandler
plain path writes the literal "/" as the path, so a request for
/foo is forwarded with request line `GET / HTTP/1.1`, not
`GET /foo HTTP/1.1`. -/
theorem sendRequest_line_ignores_path :
    (sendRequestOutput reqFoo urlFoo).1 =
      "GET / HTTP/1.1\r\nHost: example.test\r\n\r\n" ∧
    determinePath urlFoo = "/foo" ∧
    "GET / HTTP/1.1\r\nHost: example.test\r\n\r\n" ≠
      "GET /foo HTTP/1.1\r\nHost: example.test\r\n\r\n" := by
  refine ⟨rfl, rfl, by decide⟩

/-- Claim C6 amended: on the RequestProcessor plain path the request
line written to the origin is `method SP path SP version CRLF` where
path is the request-URI of the parsed target URL, with "/" substituted
when that request-URI is empty; the ConnectionHandler plain path instead
always writes "/" as the path, whatever the target URL holds. -/
theorem forwarded_request_lines (method version : String) (u : URL)
    (lines : List String) (rd : RequestData) (u2 : URL) :
    (∃ rest, (handlePlainConnectionOutput method version u lines).1 =
      method ++ " " ++ (if u.requestURI ≠ "" then u.requestURI else "/") ++
        " " ++ version ++ "\r\n" ++ rest) ∧
    (∃ rest2, (sendRequestOutput rd u2).1 =
      rd.method ++ " / " ++ rd.httpVersion ++ "\r\n" ++ rest2) := by
  constructor
  · refine ⟨headerLinesString (sendModifiedRequestHeaderPairs
      { host := u.hostname, port := determinePort u, path := determinePath u
        headers := collectHeaders lines }) ++ "\r\n", ?_⟩
    simp only [handlePlainConnectionOutput, sendModifiedRequestOutput,
      sendModifiedRequestString, sendModifiedRequestLine, determinePath,
      String.append_assoc]
  · refine ⟨headerLinesString (sendRequestHeaderPairs rd u2) ++ "\r\n", ?_⟩
    simp only [sendRequestOutput, sendRequestString, sendRequestLine,
      String.append_assoc]

/-- A parsed https target URL carrying no explicit port. -/
def urlHttpsNoPort : URL :=
  { scheme := "https", host := "example.test", hostname := "example.test"
    port := "", requestURI := "/" }

/-- Counterexample to claim C7 (no-port URLs dial 80 for http and 443
for https): `establishConnection` on the ConnectionHandler plain path
defaults the port to 80 even when the scheme is https. -/
theorem establishConnection_https_port80 :
    urlHttpsNoPort.scheme = "https" ∧ urlHttpsNoPort.port = "" ∧
    establishConnectionAddr urlHttpsNoPort = ("example.test", "80") ∧
    ("80" : String) ≠ "443" := ⟨rfl, rfl, rfl, by decide⟩

/-- Claim C7 amended: for a plain target URL with no explicit port, the
RequestProcessor path (`determinePort`) dials 80 for http and 443 for
https, while the ConnectionHandler path (`establishConnection`) always
dials 80, whatever the scheme. -/
theorem dialed_port_defaults (u : URL) (hp : u.port = "") :
    determinePort u = (if u.scheme = "https" then "443" else "80") ∧
    (establishConnectionAddr u).2 = "80" := by
  unfold determinePort establishConnectionAddr
  simp [hp]

theorem dialed_port_defaults_witness :
    determinePort urlHttpsNoPort =
      (if urlHttpsNoPort.scheme = "https" then "443" else "80") ∧
    (establishConnectionAddr urlHttpsNoPort).2 = "80" :=
  dialed_port_defaults urlHttpsNoPort rfl

theorem parseHeaderLine_no_proxy (l : String) (h : HeaderLine)
    (hp : parseHeaderLine l = some h) :
    toLowerStr h.name ≠ "proxy-connection" := by
  unfold parseHeaderLine at hp
  rcases hsp : splitN2 l ":" with _ | ⟨p0, _ | ⟨p1, rest⟩⟩
  · rw [hsp] at hp; simp at hp
  · rw [hsp] at hp; simp at hp
  · cases rest with
    | nil =>
        rw [hsp] at hp
        by_cases hpc : toLowerStr p0.trim = "proxy-connection"
        · simp [hpc] at hp
        · simp only [if_neg hpc, Option.some.injEq] at hp
          subst hp
          exact hpc
    | cons p2 rest2 => rw [hsp] at hp; simp at hp

/-- Claim C8: for every client header list, no header whose name equals
Proxy-Connection under case-insensitive comparison appears among the
header pairs serialized to the origin, on either plain-forwarding path:
the ConnectionHandler drops such headers at parse time, the
RequestProcessor filters them at serialization time. -/
theorem no_proxy_connection_forwarded (lines : List String)
    (u u2 : URL) (method version target : String) (body : List Nat) :
    ((sendRequestHeaderPairs
        { method := method, targetURL := target, httpVersion := version
          headers := parseHeaders lines, body := body } u).all
      (fun kv => toLowerStr kv.1 != "proxy-connection")) = true ∧
    ((sendModifiedRequestHeaderPairs
        { host := u2.hostname, port := determinePort u2, path := determinePath u2
          headers := collectHeaders lines }).all
      (fun kv => toLowerStr kv.1 != "proxy-connection")) = true := by
  constructor
  · rw [List.all_eq_true]
    intro kv hkv
    unfold sendRequestHeaderPairs at hkv
    rcases List.mem_append.1 hkv with hm | hm
    · obtain ⟨h, hmem, rfl⟩ := List.mem_map.1 hm
      unfold parseHeaders at hmem
      obtain ⟨l, _, hpl⟩ := List.mem_filterMap.1 hmem
      simp only [bne_iff_ne, ne_eq]
      exact parseHeaderLine_no_proxy l h hpl
    · by_cases hh : hasHeader (parseHeaders lines) "Host"
      · simp [hh] at hm
      · simp [hh] at hm
        subst hm
        show (toLowerStr "Host" != "proxy-connection") = true
        decide
  · rw [List.all_eq_true]
    intro kv hkv
    unfold sendModifiedRequestHeaderPairs at hkv
    rcases List.mem_append.1 hkv with hm | hm
    · exact (List.mem_filter.1 hm).2
    · by_cases hh : (mapFind "host" (collectHeaders lines)).isSome
      · simp [hh] at hm
      · simp [hh] at hm
        subst hm
        show (toLowerStr "Host" != "proxy-connection") = true
        decide

/-- A parsed plain target URL used in concrete body-handling runs. -/
def urlPlain : URL :=
  { scheme := "http", host := "example.test", hostname := "example.test"
    port := "", requestURI := "/" }

/-- Counterexample to claim C9 (every non-GET/HEAD plain request has its
body read under the deadline and forwarded): the RequestProcessor plain
path never reads a body.  A POST whose client connection holds the bytes
1,2,3 before EOF (exactly what the claimed deadline-bounded read
returns) is forwarded by `handlePlainConnection` with an empty body. -/
theorem plain_post_body_dropped :
    readRequestBody "POST" [ReadEvent.chunk [1, 2, 3], ReadEvent.eof] =
      Except.ok [1, 2, 3] ∧
    (handlePlainConnectionOutput "POST" "HTTP/1.1" urlPlain
      ["Host: example.test"]).2 = [] ∧
    ([] : List Nat) ≠ [1, 2, 3] := by
  refine ⟨rfl, rfl, by decide⟩

theorem readBodyLoop_eof (chunks : List (List Nat)) :
    ∀ acc, readBodyLoop (chunks.map ReadEvent.chunk ++ [ReadEvent.eof]) acc =
      Except.ok (acc ++ chunks.flatten) := by
  induction chunks with
  | nil => intro acc; simp [readBodyLoop]
  | cons c cs ih =>
      intro acc
      simp only [List.map_cons, List.cons_append]
      show readBodyLoop (List.map ReadEvent.chunk cs ++ [ReadEvent.eof]) (acc ++ c) =
        Except.ok (acc ++ (c :: cs).flatten)
      rw [ih]
      simp [List.append_assoc]

theorem readBodyLoop_timeout (chunks : List (List Nat)) :
    ∀ acc, readBodyLoop (chunks.map ReadEvent.chunk ++ [ReadEvent.timeout]) acc =
      Except.error "i/o timeout" := by
  induction chunks with
  | nil => intro acc; simp [readBodyLoop]
  | cons c cs ih =>
      intro acc
      simp only [List.map_cons, List.cons_append]
      show readBodyLoop (List.map ReadEvent.chunk cs ++ [ReadEvent.timeout]) (acc ++ c) =
        Except.error "i/o timeout"
      rw [ih]

/-- Claim C9 amended: on the ConnectionHandler plain path, for every
method other than GET and HEAD a body is read from the client under the
5-second read deadline; when the read ends at EOF the accumulated bytes
are forwarded to the origin after the blank line terminating the
headers, and when the deadline expires instead, request parsing fails
and nothing is forwarded.  The RequestProcessor plain path never reads
or forwards a body. -/
theorem body_read_and_forwarded (method : String)
    (h1 : method ≠ "GET") (h2 : method ≠ "HEAD")
    (chunks : List (List Nat)) (target version : String)
    (lines : List String) (u : URL) (version2 : String) (u2 : URL)
    (lines2 : List String) :
    processRequestOutput method target version lines
        (chunks.map ReadEvent.chunk ++ [ReadEvent.eof]) u =
      some (sendRequestString
        { method := method, targetURL := target, httpVersion := version
          headers := parseHeaders lines, body := chunks.flatten } u, chunks.flatten) ∧
    (∃ pre, sendRequestString
        { method := method, targetURL := target, httpVersion := version
          headers := parseHeaders lines, body := chunks.flatten } u =
      pre ++ "\r\n") ∧
    processRequestOutput method target version lines
        (chunks.map ReadEvent.chunk ++ [ReadEvent.timeout]) u = none ∧
    (handlePlainConnectionOutput method version2 u2 lines2).2 = [] := by
  have hnor : ¬(method = "GET" ∨ method = "HEAD") := by
    rintro (h | h)
    · exact h1 h
    · exact h2 h
  refine ⟨?_, ?_, ?_, rfl⟩
  · unfold processRequestOutput readRequestBody
    rw [if_neg hnor, readBodyLoop_eof chunks []]
    simp only [List.nil_append]
    rfl
  · exact ⟨sendRequestLine
      { method := method, targetURL := target, httpVersion := version
        headers := parseHeaders lines, body := chunks.flatten } ++
      headerLinesString (sendRequestHeaderPairs
        { method := method, targetURL := target, httpVersion := version
          headers := parseHeaders lines, body := chunks.flatten } u),
      by simp only [sendRequestString, String.append_assoc]⟩
  · unfold processRequestOutput readRequestBody
    rw [if_neg hnor, readBodyLoop_timeout chunks []]

theorem body_read_and_forwarded_witness :
    processRequestOutput "POST" "http://example.test/" "HTTP/1.1" []
        [ReadEvent.chunk [7], ReadEvent.eof] urlPlain =
      some (sendRequestString
        { method := "POST", targetURL := "http://example.test/"
          httpVersion := "HTTP/1.1", headers := [], body := [7] } urlPlain,
        [7]) :=
  (body_read_and_forwarded "POST" (by decide) (by decide) [[7]]
    "http://example.test/" "HTTP/1.1" [] urlPlain "HTTP/1.1" urlPlain []).1
